import Mathlib

/-!
Verification development for the creepMiner web request layer
(`src/webserver/RequestHandler.hpp`).

The header declares the template-substitution engine (`TemplateVariables`),
the generic lambda request handler, the routing/guard/forward/websocket
operations.  Function bodies are absent from the header, so the behaviour of
every operation is modelled from the specification; the declarations
(signatures, constness, the visible capture list of the
`LambdaRequestHandler` constructor) come from the source.
-/

namespace Burst

/-- Checks whether the pattern (first argument) occurs at the front of the
second list, character by character. -/
def headMatch : List Char → List Char → Bool
  | [], _ => true
  | _ :: _, [] => false
  | a :: p, b :: cs => a == b && headMatch p cs

/-- The literal character sequence of a marker for key `k`: `%k%`. -/
def markerOf (k : String) : List Char :=
  '%' :: (k.data ++ ['%'])

/-- A template variable: the value-producing function of a key.  The `Nat`
argument is the number of times this key's function has been invoked before,
so that one invocation per occurrence is observable in the model. -/
def Variable : Type := Nat → String

/-- Finds the first variable whose marker `%KEY%` occurs at the front of the
character stream. -/
def findKey (vars : List (String × Variable)) (cs : List Char) :
    Option (String × Variable) :=
  vars.find? (fun kv => headMatch (markerOf kv.1) cs)

/-- How many invocations of key `k` the invocation log records. -/
def countKey (log : List (String × Nat)) (k : String) : Nat :=
  (log.filter (fun e => e.1 == k)).length

/-- Modelled from the spec: the body of `TemplateVariables::inject` is absent
from the header.  A single left-to-right scan over the buffer: at each
position, if some key's `%KEY%` marker starts there, the marker is consumed,
the key's value function is invoked once (recorded in the log together with
its prior invocation count) and its result is emitted verbatim — the emitted
value is never rescanned; otherwise one character is copied.  `fuel` bounds
the number of scan steps; each step consumes at least one character, so
`fuel = length` completes the scan. -/
def injectGo (vars : List (String × Variable)) :
    Nat → List Char → List (String × Nat) → List Char × List (String × Nat)
  | _, [], log => ([], log)
  | 0, c :: cs, log => (c :: cs, log)
  | fuel + 1, c :: cs, log =>
    match findKey vars (c :: cs) with
    | some kv =>
      let n := countKey log kv.1
      let out := injectGo vars fuel (cs.drop (kv.1.data.length + 1)) (log ++ [(kv.1, n)])
      ((kv.2 n).data ++ out.1, out.2)
    | none =>
      let out := injectGo vars fuel cs log
      (c :: out.1, out.2)

/-- Scan of a whole character list, with enough fuel to finish. -/
def injectChars (vars : List (String × Variable)) (cs : List Char)
    (log : List (String × Nat)) : List Char × List (String × Nat) :=
  injectGo vars cs.length cs log

/-- The key/value-function mapping of `TemplateVariables`
(`std::unordered_map<std::string, std::function<std::string()>>` in the
source, carried here as an association list; the member is named
`variables` in the source, which Lean reserves). -/
structure TemplateVariables where
  varMap : List (String × Variable)

/-- Modelled from the spec: `TemplateVariables::inject` replaces all keys
(`%KEY%`) inside a string with the set values, in one left-to-right pass. -/
def TemplateVariables.inject (tv : TemplateVariables) (source : String) : String :=
  ⟨(injectChars tv.varMap source.data []).1⟩

/-- The sequence of value-function invocations one `inject` call performs:
each entry is a key together with its prior invocation count. -/
def TemplateVariables.injectLog (tv : TemplateVariables) (source : String) :
    List (String × Nat) :=
  (injectChars tv.varMap source.data []).2

/-- `true` when no registered key's marker occurs anywhere in the buffer. -/
def noMarker (vars : List (String × Variable)) : List Char → Bool
  | [] => true
  | c :: cs => (findKey vars (c :: cs)).isNone && noMarker vars cs

/-- `true` when, scanning `p ++ tail`, no registered key's marker starts at a
position inside `p`. -/
def noMatchIn (vars : List (String × Variable)) : List Char → List Char → Bool
  | [], _ => true
  | c :: p, tail => (findKey vars (c :: (p ++ tail))).isNone && noMatchIn vars p tail

theorem injectGo_of_noMarker (vars : List (String × Variable)) :
    ∀ (fuel : Nat) (cs : List Char) (log : List (String × Nat)),
      noMarker vars cs = true → injectGo vars fuel cs log = (cs, log) := by
  intro fuel
  induction fuel with
  | zero =>
    intro cs log _
    cases cs <;> rfl
  | succ fuel ih =>
    intro cs log h
    cases cs with
    | nil => rfl
    | cons c cs =>
      simp only [noMarker, Bool.and_eq_true, Option.isNone_iff_eq_none] at h
      simp only [injectGo, h.1]
      rw [ih cs log h.2]

theorem injectGo_found (vars : List (String × Variable)) (fuel : Nat) (c : Char)
    (cs : List Char) (log : List (String × Nat)) (k : String) (f : Variable)
    (hf : findKey vars (c :: cs) = some (k, f)) :
    injectGo vars (fuel + 1) (c :: cs) log =
      ((f (countKey log k)).data
        ++ (injectGo vars fuel (cs.drop (k.data.length + 1))
              (log ++ [(k, countKey log k)])).1,
       (injectGo vars fuel (cs.drop (k.data.length + 1))
              (log ++ [(k, countKey log k)])).2) := by
  rw [injectGo, hf]

theorem injectGo_plain (vars : List (String × Variable)) (fuel : Nat) (c : Char)
    (cs : List Char) (log : List (String × Nat))
    (hf : findKey vars (c :: cs) = none) :
    injectGo vars (fuel + 1) (c :: cs) log =
      (c :: (injectGo vars fuel cs log).1, (injectGo vars fuel cs log).2) := by
  rw [injectGo, hf]

theorem injectGo_fuel_ge (vars : List (String × Variable)) :
    ∀ (fuel : Nat) (cs : List Char) (log : List (String × Nat)),
      cs.length ≤ fuel → injectGo vars fuel cs log = injectChars vars cs log := by
  intro fuel
  induction fuel using Nat.strong_induction_on with
  | _ fuel ih =>
    intro cs log h
    cases cs with
    | nil => cases fuel <;> rfl
    | cons c cs =>
      cases fuel with
      | zero => simp at h
      | succ fuel =>
        simp only [List.length_cons, Nat.succ_le_succ_iff] at h
        show injectGo vars (fuel + 1) (c :: cs) log
          = injectGo vars (cs.length + 1) (c :: cs) log
        cases hf : findKey vars (c :: cs) with
        | some kv =>
          have hd : (cs.drop (kv.1.data.length + 1)).length ≤ cs.length := by
            rw [List.length_drop]
            exact Nat.sub_le _ _
          rw [injectGo_found vars fuel c cs log kv.1 kv.2 hf,
              injectGo_found vars cs.length c cs log kv.1 kv.2 hf,
              ih fuel (by omega) _ _ (le_trans hd h),
              ih cs.length (by omega) _ _ hd]
        | none =>
          rw [injectGo_plain vars fuel c cs log hf,
              injectGo_plain vars cs.length c cs log hf,
              ih fuel (by omega) _ _ h,
              ih cs.length (by omega) _ _ le_rfl]

theorem injectChars_append_marker (vars : List (String × Variable))
    (k : String) (f : Variable) :
    ∀ (p rest : List Char) (log : List (String × Nat)),
      noMatchIn vars p (markerOf k ++ rest) = true →
      findKey vars (markerOf k ++ rest) = some (k, f) →
      injectChars vars (p ++ (markerOf k ++ rest)) log =
        (p ++ ((f (countKey log k)).data
            ++ (injectChars vars rest (log ++ [(k, countKey log k)])).1),
         (injectChars vars rest (log ++ [(k, countKey log k)])).2) := by
  intro p
  induction p with
  | nil =>
    intro rest log _ hfind
    have hshape : markerOf k ++ rest = '%' :: (k.data ++ ['%'] ++ rest) := by
      simp [markerOf]
    have hfind' : findKey vars ('%' :: (k.data ++ ['%'] ++ rest)) = some (k, f) := by
      rw [← hshape]
      exact hfind
    have hlen : (markerOf k ++ rest).length
        = (rest.length + (k.data.length + 1)) + 1 := by
      simp [markerOf]
      omega
    have hdrop : (k.data ++ ['%'] ++ rest).drop (k.data.length + 1) = rest := by
      have h1 : (k.data ++ ['%']).length = k.data.length + 1 := by
        simp
      calc (k.data ++ ['%'] ++ rest).drop (k.data.length + 1)
          = ((k.data ++ ['%']) ++ rest).drop (k.data ++ ['%']).length := by rw [h1]
        _ = rest := List.drop_left _ _
    simp only [List.nil_append]
    show injectGo vars (markerOf k ++ rest).length (markerOf k ++ rest) log = _
    rw [hlen, hshape,
        injectGo_found vars _ '%' (k.data ++ ['%'] ++ rest) log k f hfind',
        hdrop, injectGo_fuel_ge vars _ rest _ (by omega)]
  | cons c p ih =>
    intro rest log hno hfind
    simp only [noMatchIn, Bool.and_eq_true, Option.isNone_iff_eq_none] at hno
    show injectGo vars (c :: (p ++ (markerOf k ++ rest))).length
        (c :: (p ++ (markerOf k ++ rest))) log = _
    rw [List.length_cons,
        injectGo_plain vars _ c (p ++ (markerOf k ++ rest)) log hno.1,
        injectGo_fuel_ge vars _ _ _ le_rfl, ih rest log hno.2 hfind]
    rfl

theorem inject_of_noMarker (tv : TemplateVariables) (s : String)
    (h : noMarker tv.varMap s.data = true) : tv.inject s = s := by
  show String.mk (injectChars tv.varMap s.data []).1 = s
  rw [injectChars, injectGo_of_noMarker tv.varMap s.data.length s.data [] h]

/-- The call-level effect of one `inject` call: the `TemplateVariables`
object together with the new buffer contents.  In the source the method is
declared `const` (`void inject(std::string& source) const`), so the call
mutates only the buffer passed by reference and returns the mapping intact. -/
def injectCall (tv : TemplateVariables) (source : String) :
    TemplateVariables × String :=
  (tv, tv.inject source)

/-- C1: `inject` substitutes every registered key's marker in a single
left-to-right scan.  A buffer in which no registered key's marker occurs —
in particular one holding only markers of unregistered keys — is returned
byte-identical.  Where a registered key's marker follows a match-free
region `p`, the output is `p`, then the key's value function applied once
to its prior invocation count (the invocation is appended to the log), and
then the scan of the remaining input only: the produced value is emitted
verbatim and never rescanned, so a value containing another key's marker
does not trigger re-substitution. -/
theorem inject_single_pass_substitution (tv : TemplateVariables) (s : String)
    (p rest : List Char) (k : String) (f : Variable) (log : List (String × Nat))
    (hs : noMarker tv.varMap s.data = true)
    (hp : noMatchIn tv.varMap p (markerOf k ++ rest) = true)
    (hk : findKey tv.varMap (markerOf k ++ rest) = some (k, f)) :
    tv.inject s = s ∧
    injectChars tv.varMap (p ++ (markerOf k ++ rest)) log =
      (p ++ ((f (countKey log k)).data
          ++ (injectChars tv.varMap rest (log ++ [(k, countKey log k)])).1),
       (injectChars tv.varMap rest (log ++ [(k, countKey log k)])).2) :=
  ⟨inject_of_noMarker tv s hs,
   injectChars_append_marker tv.varMap k f p rest log hp hk⟩

/-- Value function of key `K` in the concrete witnesses: its value contains
the marker of the other registered key `J`. -/
def fK : Variable := fun _ => "V%J%"

/-- Value function of key `J` in the concrete witnesses. -/
def fJ : Variable := fun _ => "w"

/-- Concrete template variables used by the witnesses. -/
def tvW : TemplateVariables := ⟨[("K", fK), ("J", fJ)]⟩

/-- Witness for C1 at concrete inputs: a marker-free buffer (holding the
unregistered marker `%X%`) is untouched, and a buffer `ab%X%` ++ `%K%` ++ `c`
substitutes `%K%` exactly once after the match-free region. -/
theorem inject_single_pass_substitution_witness :
    tvW.inject "plain %X% text" = "plain %X% text" ∧
    injectChars tvW.varMap ("ab%X%".data ++ (markerOf "K" ++ "c".data)) [] =
      ("ab%X%".data ++ ((fK (countKey [] "K")).data
          ++ (injectChars tvW.varMap "c".data ([] ++ [("K", countKey [] "K")])).1),
       (injectChars tvW.varMap "c".data ([] ++ [("K", countKey [] "K")])).2) :=
  inject_single_pass_substitution tvW "plain %X% text" "ab%X%".data "c".data
    "K" fK [] (by decide) (by decide) rfl

/-- C9: when the output of `inject` contains no remaining marker of any
registered key, a second `inject` with the same variables is the identity. -/
theorem inject_idempotent_without_markers (tv : TemplateVariables) (B : String)
    (h : noMarker tv.varMap (tv.inject B).data = true) :
    tv.inject (tv.inject B) = tv.inject B :=
  inject_of_noMarker tv (tv.inject B) h

/-- Witness for C9: `a%J%b` renders to `awb`, which holds no marker, and a
second render leaves `awb` unchanged. -/
theorem inject_idempotent_without_markers_witness :
    noMarker tvW.varMap (tvW.inject "a%J%b").data = true ∧
    tvW.inject (tvW.inject "a%J%b") = tvW.inject "a%J%b" :=
  ⟨by decide, inject_idempotent_without_markers tvW "a%J%b" (by decide)⟩

/-- C10: an `inject` call never modifies the key-to-function mapping — the
method is `const` and mutates only the buffer — so the same
`TemplateVariables` value can be reused across renders: after rendering one
buffer, rendering a second buffer gives exactly what a fresh render gives. -/
theorem inject_preserves_variables (tv : TemplateVariables) (s t : String) :
    (injectCall tv s).1 = tv ∧
    (injectCall tv s).1.varMap = tv.varMap ∧
    ((injectCall tv s).1).inject t = tv.inject t :=
  ⟨rfl, rfl, rfl⟩

/-- An inbound HTTP request (`Poco::Net::HTTPServerRequest`): method, URI,
headers, the credential the caller supplies (absent when none is sent), and
the body. -/
structure HTTPRequest where
  method : String
  uri : String
  headers : List (String × String)
  credential : Option String
  body : String
deriving DecidableEq

/-- The response written back to the caller (`Poco::Net::HTTPServerResponse`). -/
structure HTTPResponse where
  status : Nat
  headers : List (String × String)
  body : String
deriving DecidableEq

/-- The external state owned by the `Miner`/`MinerServer` collaborators that
the mutating endpoints change: plot directories, settings, the running flag,
and how many plot rescans have been ordered. -/
structure MinerState where
  plotDirs : List String
  settings : List (String × String)
  running : Bool
  rescanRequests : Nat
deriving DecidableEq

/-- The server configuration the guard compares against: the shared secret
set in the config file. -/
structure ServerConfig where
  secret : String
deriving DecidableEq

namespace RequestHandler

/-- The 401/403-class response the guard's callers write on mismatch. -/
def unauthorized : HTTPResponse := ⟨401, [], "Unauthorized"⟩

/-- Modelled from the spec: the body of `RequestHandler::badRequest` is
absent from the header; it sends a 400 Bad Request to the caller. -/
def badRequestResponse : HTTPResponse := ⟨400, [], "Bad Request"⟩

/-- A 200-class acknowledgement with the given body. -/
def okResponse (body : String) : HTTPResponse := ⟨200, [], body⟩

/-- Modelled from the spec: the body of `RequestHandler::checkCredentials`
is absent from the header; it compares the credential supplied with the
request against the secret set in the config file by simple equality, and a
request carrying no credential fails. -/
def checkCredentials (cfg : ServerConfig) (req : HTTPRequest) : Bool :=
  match req.credential with
  | some c => c == cfg.secret
  | none => false

/-- Modelled from the spec: parsing/validation of the plot directory value
from a request body; an empty body is malformed. -/
def parsePlotDir (body : String) : Option String :=
  if body.isEmpty then none else some body

/-- Modelled from the spec: parsing/validation of the settings in a POST
body; an empty body is malformed. -/
def parseSettings (body : String) : Option (List (String × String)) :=
  if body.isEmpty then none else some [("settings", body)]

/-- Modelled from the spec: the body of `RequestHandler::shutdown` is absent
from the header.  Guard first; on failure no side effect, otherwise the
miner and server are stopped. -/
def shutdown (cfg : ServerConfig) (req : HTTPRequest) (st : MinerState) :
    MinerState × HTTPResponse :=
  if checkCredentials cfg req then
    ({ st with running := false }, okResponse "shutdown")
  else (st, unauthorized)

/-- Modelled from the spec: the body of `RequestHandler::changeSettings` is
absent from the header.  Guard first, then parse and validate, then apply
the change to the miner's settings. -/
def changeSettings (cfg : ServerConfig) (req : HTTPRequest) (st : MinerState) :
    MinerState × HTTPResponse :=
  if checkCredentials cfg req then
    match parseSettings req.body with
    | some kvs => ({ st with settings := kvs ++ st.settings }, okResponse "settings changed")
    | none => (st, badRequestResponse)
  else (st, unauthorized)

/-- Modelled from the spec: the body of `RequestHandler::changePlotDirs` is
absent from the header.  One operation: guard, then shared parsing and
validation of the directory value, and only then does the `remove` flag
select removing versus adding that one directory. -/
def changePlotDirs (cfg : ServerConfig) (req : HTTPRequest) (remove : Bool)
    (st : MinerState) : MinerState × HTTPResponse :=
  if checkCredentials cfg req then
    match parsePlotDir req.body with
    | some d =>
      if remove then
        ({ st with plotDirs := st.plotDirs.erase d }, okResponse "plot dirs changed")
      else
        ({ st with plotDirs := d :: st.plotDirs }, okResponse "plot dirs changed")
    | none => (st, badRequestResponse)
  else (st, unauthorized)

/-- Modelled from the spec: the body of `RequestHandler::rescanPlotfiles` is
absent from the header.  Guard first; on success an order to rescan all plot
directories is issued. -/
def rescanPlotfiles (cfg : ServerConfig) (req : HTTPRequest) (st : MinerState) :
    MinerState × HTTPResponse :=
  if checkCredentials cfg req then
    ({ st with rescanRequests := st.rescanRequests + 1 }, okResponse "rescan")
  else (st, unauthorized)

/-- C2: a wrong or missing credential makes `checkCredentials` return
`false`, and every mutating endpoint — `shutdown`, `changeSettings`,
`changePlotDirs`, `rescanPlotfiles` — runs the guard before any
side-effecting code: it leaves the external state untouched and answers
with the 401 response. -/
theorem guard_short_circuits (cfg : ServerConfig) (req : HTTPRequest)
    (st : MinerState) (remove : Bool)
    (h : req.credential = none ∨ ∃ c, req.credential = some c ∧ c ≠ cfg.secret) :
    checkCredentials cfg req = false ∧
    shutdown cfg req st = (st, unauthorized) ∧
    changeSettings cfg req st = (st, unauthorized) ∧
    changePlotDirs cfg req remove st = (st, unauthorized) ∧
    rescanPlotfiles cfg req st = (st, unauthorized) ∧
    unauthorized.status = 401 := by
  have hc : checkCredentials cfg req = false := by
    rcases h with h | ⟨c, hcred, hne⟩
    · simp [checkCredentials, h]
    · simp [checkCredentials, hcred, hne]
  refine ⟨hc, ?_, ?_, ?_, ?_, rfl⟩ <;>
    simp [shutdown, changeSettings, changePlotDirs, rescanPlotfiles, hc]

/-- Server configuration used by the concrete witnesses. -/
def cfgW : ServerConfig := ⟨"s3cret"⟩

/-- A request carrying no credential, used by the concrete witnesses. -/
def reqNoCredW : HTTPRequest := ⟨"POST", "/shutdown", [], none, ""⟩

/-- A correctly authenticated plot-directory request, used by the concrete
witnesses. -/
def reqGoodW : HTTPRequest := ⟨"POST", "/plotdir/add", [], some "s3cret", "/mnt/plots"⟩

/-- External miner state used by the concrete witnesses. -/
def stW : MinerState := ⟨["/mnt/plots0"], [("submission", "pool")], true, 0⟩

/-- Witness for C2: the credential-less request leaves the state of every
mutating endpoint unchanged and yields the 401 response. -/
theorem guard_short_circuits_witness :
    checkCredentials cfgW reqNoCredW = false ∧
    shutdown cfgW reqNoCredW stW = (stW, unauthorized) ∧
    changeSettings cfgW reqNoCredW stW = (stW, unauthorized) ∧
    changePlotDirs cfgW reqNoCredW true stW = (stW, unauthorized) ∧
    rescanPlotfiles cfgW reqNoCredW stW = (stW, unauthorized) ∧
    unauthorized.status = 401 :=
  guard_short_circuits cfgW reqNoCredW stW true (Or.inl rfl)

/-- C8: adding a plot directory and then removing the same directory value
returns the directory set to its original state, and the `remove` flag only
selects the verb of one operation — guard and validation are shared, so the
response is the same for both flag values on any request whatsoever. -/
theorem changePlotDirs_roundtrip_shared_validation (cfg : ServerConfig)
    (req req2 : HTTPRequest) (st : MinerState) (d : String) (r1 r2 : Bool)
    (hc : checkCredentials cfg req = true)
    (hp : parsePlotDir req.body = some d) :
    (changePlotDirs cfg req true ((changePlotDirs cfg req false st).1)).1 = st ∧
    (changePlotDirs cfg req2 r1 st).2 = (changePlotDirs cfg req2 r2 st).2 := by
  constructor
  · cases st
    simp [changePlotDirs, hc, hp]
  · unfold changePlotDirs
    cases h2 : checkCredentials cfg req2 <;>
      cases hp2 : parsePlotDir req2.body <;>
        cases r1 <;> cases r2 <;> simp [h2, hp2]

/-- Witness for C8: adding `/mnt/plots` and removing it again restores the
original state, and the two flag values answer alike on the
credential-less request. -/
theorem changePlotDirs_roundtrip_witness :
    (changePlotDirs cfgW reqGoodW true
        ((changePlotDirs cfgW reqGoodW false stW).1)).1 = stW ∧
    (changePlotDirs cfgW reqNoCredW true stW).2
      = (changePlotDirs cfgW reqNoCredW false stW).2 :=
  changePlotDirs_roundtrip_shared_validation cfgW reqGoodW reqNoCredW stW
    "/mnt/plots" true false (by decide) (by decide)

/-- A route key of the static dispatch table: an exact (method, path) pair. -/
structure Route where
  method : String
  path : String
deriving DecidableEq

/-- Modelled from the spec: the body of `RequestHandler::notFound` is absent
from the header; it sends a 404 Not Found with a minimal message. -/
def notFoundResponse : HTTPResponse := ⟨404, [], "Not Found"⟩

/-- Modelled from the spec: the router — declared only through the
`MinerServer` collaborator — matches the request's (method, path) exactly
against the static table, invokes the bound handler of the first matching
entry, and falls back to `notFound` when no entry matches.  The returned
list records which handlers were invoked, in order. -/
def dispatch (table : List (Route × Nat))
    (handlers : Nat → HTTPRequest → HTTPResponse) (req : HTTPRequest) :
    List Nat × HTTPResponse :=
  match table.find? (fun e => e.1 == Route.mk req.method req.uri) with
  | some e => ([e.2], handlers e.2 req)
  | none => ([], notFoundResponse)

theorem find?_route_of_mem (table : List (Route × Nat)) (r : Route) (i : Nat)
    (hnd : (table.map Prod.fst).Nodup) (hmem : (r, i) ∈ table) :
    table.find? (fun e => e.1 == r) = some (r, i) := by
  induction table with
  | nil => cases hmem
  | cons e rest ih =>
    rw [List.map_cons, List.nodup_cons] at hnd
    rcases List.mem_cons.mp hmem with heq | hmem'
    · subst heq
      rw [List.find?_cons_of_pos]
      simp
    · have hne : e.1 ≠ r := by
        intro hEq
        exact hnd.1 (hEq ▸ List.mem_map.mpr ⟨(r, i), hmem', rfl⟩)
      rw [List.find?_cons_of_neg, ih hnd.2 hmem']
      simp [hne]

/-- C3: with the table's route keys unique, a request whose method and path
exactly equal a registered entry invokes that entry's bound handler exactly
once (the invocation trace is that one handler), and any request matching
no entry receives the `notFound` fallback — status 404 with nothing beyond
the minimal message — invoking no handler. -/
theorem dispatch_exact_or_notFound (table : List (Route × Nat))
    (handlers : Nat → HTTPRequest → HTTPResponse) (req : HTTPRequest) (i : Nat)
    (hnd : (table.map Prod.fst).Nodup)
    (hmem : (Route.mk req.method req.uri, i) ∈ table) :
    dispatch table handlers req = ([i], handlers i req) ∧
    (∀ req2 : HTTPRequest,
        (∀ e ∈ table, e.1 ≠ Route.mk req2.method req2.uri) →
        dispatch table handlers req2 = ([], notFoundResponse)) ∧
    notFoundResponse.status = 404 ∧ notFoundResponse.body = "Not Found" := by
  refine ⟨?_, ?_, rfl, rfl⟩
  · unfold dispatch
    rw [find?_route_of_mem table _ i hnd hmem]
  · intro req2 hno
    unfold dispatch
    have hnone : table.find? (fun e => e.1 == Route.mk req2.method req2.uri)
        = none := by
      rw [List.find?_eq_none]
      intro x hx
      simpa using hno x hx
    rw [hnone]

/-- The static route table of the concrete witness. -/
def tableW : List (Route × Nat) := [(⟨"GET", "/"⟩, 0), (⟨"POST", "/shutdown"⟩, 1)]

/-- The handler family of the concrete witness. -/
def handlersW : Nat → HTTPRequest → HTTPResponse :=
  fun _ req => okResponse req.uri

/-- Witness for C3: `POST /shutdown` reaches handler 1 exactly once, and the
no-match fallback yields the minimal 404. -/
theorem dispatch_exact_or_notFound_witness :
    dispatch tableW handlersW reqNoCredW = ([1], handlersW 1 reqNoCredW) ∧
    (∀ req2 : HTTPRequest,
        (∀ e ∈ tableW, e.1 ≠ Route.mk req2.method req2.uri) →
        dispatch tableW handlersW req2 = ([], notFoundResponse)) ∧
    notFoundResponse.status = 404 ∧ notFoundResponse.body = "Not Found" :=
  dispatch_exact_or_notFound tableW handlersW reqNoCredW 1 (by decide) (by decide)

/-- The 502-class response written when the upstream cannot be reached. -/
def badGateway : HTTPResponse := ⟨502, [], "Bad Gateway"⟩

/-- Modelled from the spec: the body of `RequestHandler::forward` is absent
from the header.  The already-established upstream session is embedded as a
function from the replayed request to its response, `none` when the
upstream cannot be reached.  The result carries the list of requests sent
to the upstream — the replay trace — and the response written back to the
original caller. -/
def forward (req : HTTPRequest) (upstream : HTTPRequest → Option HTTPResponse) :
    List HTTPRequest × HTTPResponse :=
  match upstream req with
  | some r => ([req], r)
  | none => ([req], badGateway)

/-- C5: `forward` replays the original request — method, path, headers and
body all unchanged — onto the upstream exactly once, writes the upstream's
status, headers and body back unchanged, and on an unreachable upstream
answers 502 to the caller after exactly one attempt (no retry by this
primitive). -/
theorem forward_transparent_relay (req : HTTPRequest)
    (up down : HTTPRequest → Option HTTPResponse) (r : HTTPResponse)
    (hup : up req = some r) (hdown : down req = none) :
    (forward req up).1 = [req] ∧
    (forward req up).2.status = r.status ∧
    (forward req up).2.headers = r.headers ∧
    (forward req up).2.body = r.body ∧
    (forward req down).1 = [req] ∧
    (forward req down).2 = badGateway ∧
    badGateway.status = 502 := by
  unfold forward
  rw [hup, hdown]
  exact ⟨rfl, rfl, rfl, rfl, rfl, rfl, rfl⟩

/-- The witness upstream: it answers every request with status 418 and body
`teapot`. -/
def upstream418W : HTTPRequest → Option HTTPResponse :=
  fun _ => some ⟨418, [], "teapot"⟩

/-- The witness upstream that cannot be reached. -/
def downW : HTTPRequest → Option HTTPResponse := fun _ => none

/-- Witness for C5: an upstream 418 with body `teapot` reaches the caller as
status 418 with body `teapot`, and the unreachable upstream yields 502. -/
theorem forward_transparent_relay_witness :
    (forward reqNoCredW upstream418W).1 = [reqNoCredW] ∧
    (forward reqNoCredW upstream418W).2.status = 418 ∧
    (forward reqNoCredW upstream418W).2.headers = [] ∧
    (forward reqNoCredW upstream418W).2.body = "teapot" ∧
    (forward reqNoCredW downW).1 = [reqNoCredW] ∧
    (forward reqNoCredW downW).2 = badGateway ∧
    badGateway.status = 502 :=
  forward_transparent_relay reqNoCredW upstream418W downW ⟨418, [], "teapot"⟩
    rfl rfl

/-- The 500-class response of the adapter's generic error path. -/
def internalServerError : HTTPResponse := ⟨500, [], "Internal Server Error"⟩

/-- The `LambdaRequestHandler` built by the template constructor visible in
the header: the capture list `[function, &args...]` captures the operation
by value and the bound context argument by reference, embedded here as the
operation together with the index of the context object in the store of
long-lived collaborators.  The context value itself is read only at
invocation time. -/
structure LambdaRequestHandler (α : Type) where
  func : HTTPRequest → α → α × HTTPResponse
  ref : Nat

/-- Registration: the one-time binding performed by the
`LambdaRequestHandler` constructor.  It only records the operation and the
reference; no context value is copied and nothing is invoked. -/
def bindLambda {α : Type} (function : HTTPRequest → α → α × HTTPResponse)
    (ref : Nat) : LambdaRequestHandler α :=
  ⟨function, ref⟩

/-- Modelled from the spec: the body of
`LambdaRequestHandler::handleRequest` is absent from the header.  It reads
the bound context through the captured reference at call time, invokes the
bound operation synchronously exactly once with the request followed by
that context, and writes the context back.  The trailing number counts the
invocations of the bound operation during this call. -/
def handleRequest {α : Type} (h : LambdaRequestHandler α) (req : HTTPRequest)
    (store : List α) : List α × HTTPResponse × Nat :=
  match store[h.ref]? with
  | some ctx => (store.set h.ref (h.func req ctx).1, (h.func req ctx).2, 1)
  | none => (store, internalServerError, 0)

/-- C6: the adapter binds once at registration — `bindLambda` records the
operation and the reference and invokes nothing — and each incoming request
invokes the bound operation synchronously exactly once on the context value
the store holds at call time: after the store entry is overwritten with
`v`, the invocation sees `v`, not any value from registration time, because
the bound argument is captured by reference, not copied. -/
theorem handleRequest_by_reference_once {α : Type}
    (f : HTTPRequest → α → α × HTTPResponse) (i : Nat) (store : List α)
    (v : α) (req : HTTPRequest) (h : i < store.length) :
    handleRequest (bindLambda f i) req (store.set i v) =
      ((store.set i v).set i (f req v).1, (f req v).2, 1) := by
  unfold handleRequest bindLambda
  rw [List.getElem?_set_eq_of_lt _ (by simpa using h)]

/-- The witness's bound operation: it increments the bound counter and
echoes the request URI. -/
def fCountW : HTTPRequest → Nat → Nat × HTTPResponse :=
  fun req n => (n + 1, okResponse req.uri)

/-- Witness for C6: with the store entry 1 overwritten to 99 after
registration, the invocation sees 99 — not the 20 present at registration —
and the operation runs exactly once. -/
theorem handleRequest_by_reference_once_witness :
    1 < ([10, 20] : List Nat).length ∧
    handleRequest (bindLambda fCountW 1) reqNoCredW (([10, 20] : List Nat).set 1 99) =
      ((([10, 20] : List Nat).set 1 99).set 1 (fCountW reqNoCredW 99).1,
       (fCountW reqNoCredW 99).2, 1) :=
  ⟨by decide,
   handleRequest_by_reference_once fCountW 1 [10, 20] 99 reqNoCredW (by decide)⟩

/-- A WebSocket text frame sent to one session. -/
inductive Frame
  | config (snapshot : String)
  | logLines (lines : List String)
  | event (line : String)
deriving DecidableEq

/-- One WebSocket session tracked by the broadcast hub: its identifier,
whether it is still Open, and the frames delivered to it, in order. -/
structure Session where
  id : Nat
  isOpen : Bool
  received : List Frame
deriving DecidableEq

/-- The broadcast hub state held by the `MinerServer` collaborator: the
current configuration snapshot, the buffered log lines of the active work
cycle, and the tracked sessions. -/
structure Hub where
  config : String
  logBuffer : List String
  sessions : List Session
deriving DecidableEq

/-- Modelled from the spec: the body of `RequestHandler::addWebsocket` is
absent from the header.  The accepted upgrade creates an Open session that
immediately receives the configuration snapshot frame and then the full
buffered log of the active work cycle, in that order, before anything
else. -/
def addWebsocket (hub : Hub) (sid : Nat) : Hub :=
  { hub with sessions := hub.sessions ++
      [⟨sid, true, [Frame.config hub.config, Frame.logLines hub.logBuffer]⟩] }

/-- Modelled from the spec: one write of a broadcast round to one session.
A write failure moves only that session out of Open; a successful write to
an Open session appends the event frame; a non-Open session is skipped. -/
def wsWrite (fails : Nat → Bool) (line : String) (s : Session) : Session :=
  if s.isOpen then
    if fails s.id then { s with isOpen := false }
    else { s with received := s.received ++ [Frame.event line] }
  else s

/-- Modelled from the spec: a broadcast round delivers one event to every
currently-Open session; `fails` tells which sessions' writes fail during
this round. -/
def broadcast (hub : Hub) (fails : Nat → Bool) (line : String) : Hub :=
  { hub with sessions := hub.sessions.map (wsWrite fails line) }

/-- A sequence of broadcast rounds, each with its failure pattern. -/
def broadcastMany (hub : Hub) (rounds : List ((Nat → Bool) × String)) : Hub :=
  rounds.foldl (fun h r => broadcast h r.1 r.2) hub

/-- The session with the given identifier, when the hub tracks one. -/
def findSession (hub : Hub) (sid : Nat) : Option Session :=
  hub.sessions.find? (fun s => s.id == sid)

theorem broadcastMany_cons (hub : Hub) (r : (Nat → Bool) × String)
    (rounds : List ((Nat → Bool) × String)) :
    broadcastMany hub (r :: rounds) = broadcastMany (broadcast hub r.1 r.2) rounds :=
  rfl

theorem wsWrite_id (fails : Nat → Bool) (line : String) (s : Session) :
    (wsWrite fails line s).id = s.id := by
  unfold wsWrite
  split
  · split <;> rfl
  · rfl

theorem findSession_broadcast (hub : Hub) (fails : Nat → Bool) (line : String)
    (sid : Nat) :
    findSession (broadcast hub fails line) sid
      = (findSession hub sid).map (wsWrite fails line) := by
  show (hub.sessions.map (wsWrite fails line)).find? (fun s => s.id == sid) = _
  rw [List.find?_map]
  have hp : ((fun s : Session => s.id == sid) ∘ wsWrite fails line)
      = (fun s : Session => s.id == sid) := by
    funext s
    simp [Function.comp, wsWrite_id]
  rw [hp]
  rfl

theorem find?_id_append (l : List Session) (sid : Nat) (s0 : Session)
    (hid : s0.id = sid) (hfresh : ∀ s ∈ l, s.id ≠ sid) :
    (l ++ [s0]).find? (fun s => s.id == sid) = some s0 := by
  induction l with
  | nil =>
    rw [List.nil_append, List.find?_cons_of_pos]
    simp [hid]
  | cons a l ih =>
    rw [List.cons_append, List.find?_cons_of_neg]
    · exact ih fun s hs => hfresh s (List.mem_cons_of_mem a hs)
    · simp [hfresh a (List.mem_cons_self a l)]

theorem findSession_addWebsocket (hub : Hub) (sid : Nat)
    (hfresh : ∀ s ∈ hub.sessions, s.id ≠ sid) :
    findSession (addWebsocket hub sid) sid
      = some ⟨sid, true, [Frame.config hub.config, Frame.logLines hub.logBuffer]⟩ :=
  find?_id_append hub.sessions sid _ rfl hfresh

theorem broadcastMany_received (rounds : List ((Nat → Bool) × String)) :
    ∀ (hub : Hub) (sid : Nat) (s : Session),
      findSession hub sid = some s → s.isOpen = true →
      (∀ r ∈ rounds, r.1 sid = false) →
      findSession (broadcastMany hub rounds) sid
        = some ⟨s.id, true, s.received ++ rounds.map (fun r => Frame.event r.2)⟩ := by
  induction rounds with
  | nil =>
    intro hub sid s hf ho _
    show findSession hub sid = _
    rw [hf, List.map_nil, List.append_nil]
    cases s with
    | mk i o rec =>
      cases ho
      rfl
  | cons r rounds ih =>
    intro hub sid s hf ho hok
    have hf' : hub.sessions.find? (fun t => t.id == sid) = some s := hf
    have hsid : s.id = sid := by simpa using List.find?_some hf'
    have hw : wsWrite r.1 r.2 s
        = { s with received := s.received ++ [Frame.event r.2] } := by
      unfold wsWrite
      rw [if_pos ho, hsid, if_neg]
      simp [hok r (List.mem_cons_self r rounds)]
    have hbf : findSession (broadcast hub r.1 r.2) sid
        = some { s with received := s.received ++ [Frame.event r.2] } := by
      rw [findSession_broadcast, hf]
      show some (wsWrite r.1 r.2 s) = _
      rw [hw]
    rw [broadcastMany_cons,
        ih (broadcast hub r.1 r.2) sid _ hbf ho
          (fun q hq => hok q (List.mem_cons_of_mem r hq))]
    simp

/-- C4: a session that connects while the hub buffers the log of the active
work cycle receives, in order, the configuration snapshot frame first, then
the full buffered log, and only after both the events broadcast after its
connection, each exactly once and in broadcast order. -/
theorem websocket_config_then_log_then_events (hub : Hub) (sid : Nat)
    (rounds : List ((Nat → Bool) × String))
    (hfresh : ∀ s ∈ hub.sessions, s.id ≠ sid)
    (hok : ∀ r ∈ rounds, r.1 sid = false) :
    findSession (broadcastMany (addWebsocket hub sid) rounds) sid
      = some ⟨sid, true,
          Frame.config hub.config :: Frame.logLines hub.logBuffer ::
            rounds.map (fun r => Frame.event r.2)⟩ := by
  have h0 := findSession_addWebsocket hub sid hfresh
  have h1 := broadcastMany_received rounds (addWebsocket hub sid) sid _ h0 rfl hok
  simpa using h1

/-- The hub of the C4 witness: two buffered log lines, no session yet. -/
def hubW : Hub := ⟨"cfg", ["line one", "line two"], []⟩

/-- The two failure-free broadcast rounds of the C4 witness. -/
def roundsW : List ((Nat → Bool) × String) :=
  [(fun _ => false, "event one"), (fun _ => false, "event two")]

/-- Witness for C4: the session connecting with two buffered lines receives
config, then both lines, then the two later events, in order. -/
theorem websocket_config_then_log_then_events_witness :
    findSession (broadcastMany (addWebsocket hubW 7) roundsW) 7
      = some ⟨7, true,
          Frame.config hubW.config :: Frame.logLines hubW.logBuffer ::
            roundsW.map (fun r => Frame.event r.2)⟩ :=
  websocket_config_then_log_then_events hubW 7 roundsW
    (by decide) (by decide)

/-- C7: during one broadcast round, a write failure on session `a` moves
only `a` out of Open and leaves its delivered frames as they were, while
session `b` — still Open with a succeeding write — receives exactly that
round's message: the per-session failure does not abort the broadcast to
the remaining sessions. -/
theorem broadcast_isolates_write_failure (hub : Hub) (fails : Nat → Bool)
    (line : String) (a b : Nat) (sa sb : Session)
    (hfa : findSession hub a = some sa) (hfb : findSession hub b = some sb)
    (hao : sa.isOpen = true) (hbo : sb.isOpen = true)
    (hfail : fails a = true) (hokb : fails b = false) :
    findSession (broadcast hub fails line) a = some { sa with isOpen := false } ∧
    findSession (broadcast hub fails line) b
      = some { sb with received := sb.received ++ [Frame.event line] } := by
  have hfa' : hub.sessions.find? (fun t => t.id == a) = some sa := hfa
  have hfb' : hub.sessions.find? (fun t => t.id == b) = some sb := hfb
  have hsa : sa.id = a := by simpa using List.find?_some hfa'
  have hsb : sb.id = b := by simpa using List.find?_some hfb'
  constructor
  · rw [findSession_broadcast, hfa]
    show some (wsWrite fails line sa) = _
    unfold wsWrite
    rw [if_pos hao, hsa, if_pos hfail]
  · rw [findSession_broadcast, hfb]
    show some (wsWrite fails line sb) = _
    unfold wsWrite
    rw [if_pos hbo, hsb, if_neg]
    simp [hokb]

/-- The hub of the C7 witness: two Open sessions. -/
def hub2W : Hub := ⟨"cfg", [], [⟨1, true, []⟩, ⟨2, true, []⟩]⟩

/-- The failure pattern of the C7 witness: exactly session 1's write fails. -/
def failsW : Nat → Bool := fun n => n == 1

/-- Witness for C7: session 1's write failure closes only session 1, and
session 2 still receives the round's message. -/
theorem broadcast_isolates_write_failure_witness :
    findSession (broadcast hub2W failsW "news") 1
      = some { Session.mk 1 true [] with isOpen := false } ∧
    findSession (broadcast hub2W failsW "news") 2
      = some { Session.mk 2 true [] with
          received := [] ++ [Frame.event "news"] } :=
  broadcast_isolates_write_failure hub2W failsW "news" 1 2
    ⟨1, true, []⟩ ⟨2, true, []⟩ rfl rfl rfl rfl rfl rfl

end RequestHandler

end Burst
